import Mathlib

set_option maxRecDepth 1000000

/-!
Verification development for the visa-statement auditor pipeline
(`src/app.py`): the money-normalization helper `clean_money`, the
response-parsing pipeline (`valid_lines` filtering, the
`pd.read_csv(sep="|", header=None, on_bad_lines='skip')` table reader,
the FORCE COLUMNS step, the CLEAN DATA step), and the risk check /
summary metrics.

Python strings are modelled as Lean `String`; Python scalar values as
`PyVal` (None, str, int, float), with floats as `PyFloat` over `ℚ`
plus nan/inf markers.  Fallible steps (the `float(...)` call, the
empty-extraction stop) are modelled with `Except`.  Quote-aware CSV
parsing is not modelled (the source's own design notes reject
quote-aware parsing; fields are split positionally on the delimiter).
-/

namespace VisaAuditor

/-! ## Python string primitives -/

/-- Whitespace characters stripped by Python's `str.strip()` (ASCII subset). -/
def pyIsSpace (c : Char) : Bool :=
  c = ' ' || c = '\t' || c = '\n' || c = '\r' || c = '\x0b' || c = '\x0c'

/-- Strip `pyIsSpace` characters from both ends of a character list. -/
def pyStripList (cs : List Char) : List Char :=
  ((cs.dropWhile pyIsSpace).reverse.dropWhile pyIsSpace).reverse

/-- Python `str.strip()`. -/
def pyStrip (s : String) : String :=
  String.mk (pyStripList s.toList)

/-- Split a character list on a separator character, Python `str.split(sep)`
semantics: `"".split(sep) = [""]`, separators at the ends yield empty fields. -/
def splitOnChar (sep : Char) : List Char → List (List Char)
  | [] => [[]]
  | c :: cs =>
    match splitOnChar sep cs with
    | [] => [[]]
    | g :: gs => if c = sep then [] :: g :: gs else (c :: g) :: gs

/-- Remove every (leftmost, non-overlapping) occurrence of `pat` from `cs`,
Python `str.replace(pat, "")` semantics.  The `fuel` argument makes the
recursion structural; it is initialized to the list length, which bounds the
number of steps since each step consumes at least one character. -/
def removeAllFuel (pat : List Char) : Nat → List Char → List Char
  | _, [] => []
  | 0, cs => cs
  | fuel + 1, c :: cs =>
    if pat ≠ [] ∧ pat.isPrefixOf (c :: cs) then
      removeAllFuel pat fuel ((c :: cs).drop pat.length)
    else
      c :: removeAllFuel pat fuel cs

/-- Python `s.replace(pat, "")`. -/
def removeAll (pat s : String) : String :=
  String.mk (removeAllFuel pat.toList s.toList.length s.toList)

/-- Decide whether `p` occurs as a contiguous sublist of the second list. -/
def infixOfList (p : List Char) : List Char → Bool
  | [] => p.isEmpty
  | c :: cs => p.isPrefixOf (c :: cs) || infixOfList p cs

/-- Case-insensitive substring test, modelling
`Series.str.contains(pat, case=False)` for a plain (non-regex-special)
pattern applied to one string. -/
def containsCI (s pat : String) : Bool :=
  infixOfList pat.toLower.toList s.toLower.toList

/-! ## Python scalar values -/

/-- A Python float, abstracted over exact rationals plus the nan/inf poles. -/
inductive PyFloat where
  | num (q : ℚ)
  | nan
  | inf (pos : Bool)
deriving DecidableEq

/-- A Python scalar value as it occurs in this pipeline: `None`, a string,
an int, or a float (pandas missing cells are `float('nan')`). -/
inductive PyVal where
  | none
  | str (s : String)
  | int (n : Int)
  | float (f : PyFloat)
deriving DecidableEq

/-- Python truthiness (`bool(v)`) for the scalar values modelled here.
Note `float('nan')` is truthy. -/
def pyTruthy : PyVal → Bool
  | PyVal.none => false
  | PyVal.str s => s ≠ ""
  | PyVal.int n => n ≠ 0
  | PyVal.float (PyFloat.num q) => q ≠ 0
  | PyVal.float PyFloat.nan => true
  | PyVal.float (PyFloat.inf _) => true

/-! ## Python `float(...)` parsing -/

/-- Numeric value of a digit list, most significant first. -/
def digitsVal (ds : List Char) : Nat :=
  ds.foldl (fun a c => a * 10 + (c.toNat - 48)) 0

/-- Scale a mantissa by a signed power of ten. -/
def applyExp (mant : ℚ) (eneg : Bool) (e : Nat) : ℚ :=
  if eneg then mant / 10 ^ e else mant * 10 ^ e

/-- Parse the optional exponent suffix of a float literal; the whole rest of
the input must be consumed. -/
def parseExpPart (mant : ℚ) (cs : List Char) : Option ℚ :=
  match cs with
  | [] => some mant
  | e :: rest =>
    if e = 'e' ∨ e = 'E' then
      let signRest : Bool × List Char :=
        match rest with
        | '+' :: r => (false, r)
        | '-' :: r => (true, r)
        | r => (false, r)
      let ds := signRest.2.takeWhile Char.isDigit
      let rest₃ := signRest.2.dropWhile Char.isDigit
      if ds = [] ∨ rest₃ ≠ [] then Option.none
      else some (applyExp mant signRest.1 (digitsVal ds))
    else Option.none

/-- Parse the unsigned numeric body `digits [. digits] [exp]` of a Python
float literal. -/
def parseNumBody (cs : List Char) : Option ℚ :=
  let ip := cs.takeWhile Char.isDigit
  let rest := cs.dropWhile Char.isDigit
  match rest with
  | '.' :: rest₂ =>
    let fp := rest₂.takeWhile Char.isDigit
    let rest₃ := rest₂.dropWhile Char.isDigit
    if ip = [] ∧ fp = [] then Option.none
    else parseExpPart ((digitsVal ip : ℚ) + (digitsVal fp : ℚ) / 10 ^ fp.length) rest₃
  | _ => if ip = [] then Option.none else parseExpPart (digitsVal ip : ℚ) rest

/-- Parse an unsigned Python float token: `inf`, `infinity`, `nan`
(case-insensitively) or a numeric body. -/
def parseUnsigned (cs : List Char) : Option PyFloat :=
  let lc := cs.map Char.toLower
  if lc = ['i', 'n', 'f'] ∨ lc = ['i', 'n', 'f', 'i', 'n', 'i', 't', 'y'] then
    some (PyFloat.inf true)
  else if lc = ['n', 'a', 'n'] then some PyFloat.nan
  else (parseNumBody cs).map PyFloat.num

/-- Negate a Python float. -/
def negFloat : PyFloat → PyFloat
  | PyFloat.num q => PyFloat.num (-q)
  | PyFloat.nan => PyFloat.nan
  | PyFloat.inf p => PyFloat.inf (!p)

/-- Python `float(s)` on the fragment relevant here: optional surrounding
whitespace, optional sign, then `inf`/`infinity`/`nan` or a decimal literal
with optional fraction and exponent.  `Option.none` models `ValueError`. -/
def pyFloatParse (s : String) : Option PyFloat :=
  let cs := pyStripList s.toList
  match cs with
  | '+' :: rest => parseUnsigned rest
  | '-' :: rest => (parseUnsigned rest).map negFloat
  | _ => parseUnsigned cs

/-- Python `float(s)` with the `ValueError` made explicit. -/
def float_or_raise (s : String) : Except Unit PyFloat :=
  match pyFloatParse s with
  | some f => Except.ok f
  | Option.none => Except.error ()

/-! ## Python `str(...)` -/

/-- Least `k ≤ 1100` with `d ∣ 10 ^ k`, if any.  Every denominator of a value
actually representable as a Python float (a dyadic rational) admits such a
`k` (binary64 needs at most 1074 fractional digits). -/
def decExpK (d : Nat) : Option Nat :=
  (List.range 1101).find? (fun k => 10 ^ k % d = 0)

/-- Exact decimal rendering of a rational whose denominator divides a power
of ten.  Python's `str` on a float prints the shortest decimal that parses
back to the same float; for the exact-rational model the exact expansion is
the faithful counterpart (it parses back to the same `ℚ`).  Rationals outside
the dyadic (Python-float) domain get a total fallback rendering. -/
def pyFloatStr (f : PyFloat) : String :=
  match f with
  | PyFloat.nan => "nan"
  | PyFloat.inf true => "inf"
  | PyFloat.inf false => "-inf"
  | PyFloat.num q =>
    match decExpK q.den with
    | Option.none => toString q.num ++ "/" ++ toString q.den
    | some k =>
      let ds := (toString (q.num.natAbs * 10 ^ k / q.den)).toList
      let ds := if ds.length < k + 1 then List.replicate (k + 1 - ds.length) '0' ++ ds else ds
      let ip := ds.take (ds.length - k)
      let fp := ds.drop (ds.length - k)
      let fp := if fp = [] then ['0'] else fp
      (if q.num < 0 then "-" else "") ++ String.mk ip ++ "." ++ String.mk fp

/-- Python `str(v)` for the scalar values modelled here. -/
def pyStr : PyVal → String
  | PyVal.none => "None"
  | PyVal.str s => s
  | PyVal.int n => toString n
  | PyVal.float f => pyFloatStr f

/-! ## `clean_money` (src/app.py lines 68-74) -/

/-- The cleaned residual of `clean_money`:
`str(val).replace(",", "").replace("₦", "").replace("Dr", "").replace("Cr", "").strip()`. -/
def cleanResidual (s : String) : String :=
  pyStrip (removeAll "Cr" (removeAll "Dr" (removeAll "₦" (removeAll "," s))))

/-- `clean_money` from src/app.py: falsy input returns `0.0` directly;
otherwise the decorations are stripped and `float(...)` is attempted, any
parse failure degrading to `0.0`. -/
def clean_money (val : PyVal) : PyFloat :=
  if !pyTruthy val then PyFloat.num 0
  else
    match float_or_raise (cleanResidual (pyStr val)) with
    | Except.ok f => f
    | Except.error _ => PyFloat.num 0

/-! ## Response parsing (src/app.py lines 200-222) -/

/-- Python `raw.split('\n')`. -/
def splitLines (s : String) : List String :=
  (splitOnChar '\n' s.toList).map String.mk

/-- `valid_lines = [line for line in raw_ai_text.split('\n') if "|" in line]`. -/
def validLines (raw : String) : List String :=
  (splitLines raw).filter (fun line => line.toList.contains '|')

/-- The fields of one line under `sep="|"`. -/
def rowFields (line : String) : List String :=
  (splitOnChar '|' line.toList).map String.mk

/-- The default `na_values` of `pd.read_csv`: field strings parsed as NaN. -/
def NA_VALUES : List String :=
  ["", "#N/A", "#N/A N/A", "#NA", "-1.#IND", "-1.#QNAN", "-NaN", "-nan",
   "1.#IND", "1.#QNAN", "<NA>", "N/A", "NA", "NULL", "NaN", "None", "n/a", "nan", "null"]

/-- One CSV field as a cell value: NA tokens become `float('nan')`, anything
else stays a string.  (Column-wise numeric dtype inference is not modelled;
every numeric-looking cell reaches `clean_money` via `str(val)` either way,
with the same result.) -/
def toCell (f : String) : PyVal :=
  if f ∈ NA_VALUES then PyVal.float PyFloat.nan else PyVal.str f

/-- A line's cells padded with NaN up to the table width `n`, as
`pd.read_csv` does for rows with fewer fields than the first row. -/
def padRow (n : Nat) (fs : List String) : List PyVal :=
  fs.map toCell ++ List.replicate (n - fs.length) (PyVal.float PyFloat.nan)

/-- `pd.read_csv(StringIO(clean_csv), sep="|", header=None, on_bad_lines='skip')`:
the first line fixes the column count; rows with more fields are bad lines
and are skipped; rows with fewer fields are padded with NaN. -/
def readTable (ls : List String) : List (List PyVal) :=
  match ls with
  | [] => []
  | first :: _ =>
    let n := (rowFields first).length
    ls.filterMap (fun line =>
      if (rowFields line).length > n then Option.none
      else some (padRow n (rowFields line)))

/-- The dataframe after the FORCE COLUMNS step: `named` means the five
schema columns Date, Description, Credit, Debit, Balance were assigned
(each row holds exactly those five cells, in that order); `unnamed` means
`col_count <= 3`, so the code's renaming never ran and the columns keep
their integer labels. -/
inductive Table where
  | named (rows : List (List PyVal))
  | unnamed (rows : List (List PyVal))
deriving DecidableEq

/-- FORCE COLUMNS (src/app.py lines 210-217): with `col_count >= 5` the five
schema columns are kept and extras dropped; with `col_count == 4` a Balance
column holding int `0` is appended; otherwise the frame is left as-is. -/
def forceColumns (t : List (List PyVal)) : Table :=
  match t with
  | [] => Table.unnamed []
  | first :: _ =>
    if first.length ≥ 5 then Table.named (t.map (fun r => r.take 5))
    else if first.length = 4 then Table.named (t.map (fun r => r ++ [PyVal.int 0]))
    else Table.unnamed t

/-- One cell after `df[col].apply(clean_money)`. -/
def cleanCell (c : PyVal) : PyVal :=
  PyVal.float (clean_money c)

/-- CLEAN DATA applied to one row of a named table: `clean_money` hits the
Credit, Debit, Balance positions. -/
def cleanRow (r : List PyVal) : List PyVal :=
  match r with
  | [d, desc, c, de, b] => [d, desc, cleanCell c, cleanCell de, cleanCell b]
  | other => other

/-- CLEAN DATA (src/app.py lines 219-222): the columns named Credit, Debit,
Balance exist exactly on named tables. -/
def cleanTable : Table → Table
  | Table.named rows => Table.named (rows.map cleanRow)
  | Table.unnamed rows => Table.unnamed rows

/-- Document-level failure conditions surfaced by the parsing stage. -/
inductive AuditError where
  | emptyExtraction
deriving DecidableEq

instance {ε α : Type} [DecidableEq ε] [DecidableEq α] : DecidableEq (Except ε α) := fun a b =>
  match a, b with
  | Except.ok x, Except.ok y =>
    if h : x = y then isTrue (by rw [h]) else isFalse (by intro hc; cases hc; exact h rfl)
  | Except.error x, Except.error y =>
    if h : x = y then isTrue (by rw [h]) else isFalse (by intro hc; cases hc; exact h rfl)
  | Except.ok _, Except.error _ => isFalse (by intro hc; cases hc)
  | Except.error _, Except.ok _ => isFalse (by intro hc; cases hc)

/-- The parsing pipeline of the Visa auditor (src/app.py lines 200-222):
filter delimiter-containing lines, stop with an error when none remain
(`st.error(...); st.stop()`), otherwise read, force columns, and normalize
the money columns. -/
def pipeline (raw : String) : Except AuditError Table :=
  let vs := validLines raw
  if vs = [] then Except.error AuditError.emptyExtraction
  else Except.ok (cleanTable (forceColumns (readTable vs)))

/-! ## Risk check and summary metrics (src/app.py lines 226-239) -/

/-- A normalized transaction record as consumed by the risk check: the
description is `Option.none` when the parsed cell was NaN. -/
structure NRecord where
  date : String
  description : Option String
  credit : ℚ
  debit : ℚ
  balance : ℚ
deriving DecidableEq

/-- A LumpSum flag; the emitted message references the record's credit
amount and date (`f"🚩 **LUMP SUM:** ₦{row['Credit']:,.2f} on {row['Date']}"`). -/
structure Flag where
  credit : ℚ
  date : String
deriving DecidableEq

/-- `df['Description'].str.contains('SALARY', case=False, na=False)` on one
record: a missing (NaN) description yields `False` by `na=False`. -/
def descHasSalary (d : Option String) : Bool :=
  match d with
  | some s => containsCI s "SALARY"
  | Option.none => false

/-- The flag built for one suspicious record. -/
def mkFlag (r : NRecord) : Flag :=
  { credit := r.credit, date := r.date }

/-- The risk check (src/app.py lines 227-232): `limit = salary * 3`;
`suspicious = df[(df['Credit'] > limit) & (~df['Description'].str.contains(
'SALARY', case=False, na=False))]`; then one flag is appended per suspicious
row, iterating in dataframe order. -/
def riskFlags (salary : ℚ) (rs : List NRecord) : List Flag :=
  let limit := salary * 3
  let suspicious := rs.filter (fun r => decide (r.credit > limit) && !descHasSalary r.description)
  suspicious.foldl (fun acc r => acc ++ [mkFlag r]) []

/-- `df['Credit'].sum()` (Total Inflow metric, src/app.py line 238). -/
def totalInflow (rs : List NRecord) : ℚ :=
  rs.foldl (fun acc r => acc + r.credit) 0

/-- `df.iloc[-1]['Balance']` (Closing Balance metric, src/app.py line 239):
`Option.none` models the `IndexError` raised on an empty frame. -/
def closingBalance (rs : List NRecord) : Option ℚ :=
  rs.getLast?.map NRecord.balance

/-! ## Helper lemmas -/

theorem foldl_append_eq_map {α β : Type} (f : α → β) (l : List α) (acc : List β) :
    l.foldl (fun a x => a ++ [f x]) acc = acc ++ l.map f := by
  induction l generalizing acc with
  | nil => simp
  | cons x xs ih => simp [ih, List.append_assoc]

theorem riskFlags_eq_filterMap (salary : ℚ) (rs : List NRecord) :
    riskFlags salary rs =
      (rs.filter
          (fun r => decide (r.credit > salary * 3) && !descHasSalary r.description)).map
        mkFlag := by
  simp [riskFlags, foldl_append_eq_map]

theorem foldl_add_credit (rs : List NRecord) (a : ℚ) :
    rs.foldl (fun acc r => acc + r.credit) a = a + (rs.map NRecord.credit).sum := by
  induction rs generalizing a with
  | nil => simp
  | cons r rs ih => simp [ih, add_assoc]

theorem filterMap_dite {α β : Type} (p : α → Prop) [DecidablePred p] (g : α → β)
    (l : List α) :
    l.filterMap (fun a => if p a then Option.none else some (g a)) =
      (l.filter (fun a => !decide (p a))).map g := by
  induction l with
  | nil => rfl
  | cons a l ih =>
    by_cases hp : p a <;> simp [List.filterMap_cons, List.filter_cons, hp, ih]

theorem readTable_eq (first : String) (rest : List String) :
    readTable (first :: rest) =
      ((first :: rest).filter
          (fun l => !decide ((rowFields l).length > (rowFields first).length))).map
        (fun l => padRow (rowFields first).length (rowFields l)) := by
  unfold readTable
  exact filterMap_dite _ _ _

theorem mem_readTable_of_le (first : String) (rest : List String) (line : String)
    (hmem : line ∈ first :: rest)
    (hle : (rowFields line).length ≤ (rowFields first).length) :
    padRow (rowFields first).length (rowFields line) ∈ readTable (first :: rest) := by
  rw [readTable_eq]
  refine List.mem_map_of_mem _ (List.mem_filter.2 ⟨hmem, ?_⟩)
  simpa [Nat.not_lt] using hle

theorem length_padRow (n : Nat) (fs : List String) (h : fs.length ≤ n) :
    (padRow n fs).length = n := by
  simp only [padRow, List.length_append, List.length_map, List.length_replicate]
  omega

theorem mem_readTable_length (first : String) (rest : List String) (r : List PyVal)
    (hr : r ∈ readTable (first :: rest)) :
    r.length = (rowFields first).length := by
  rw [readTable_eq] at hr
  obtain ⟨l, hl, rfl⟩ := List.mem_map.1 hr
  have h := (List.mem_filter.1 hl).2
  refine length_padRow _ _ ?_
  simpa [Nat.not_lt] using h

theorem length_cleanRow (r : List PyVal) : (cleanRow r).length = r.length := by
  rcases r with _ | ⟨a, _ | ⟨b, _ | ⟨c, _ | ⟨d, _ | ⟨e, _ | ⟨f, rest⟩⟩⟩⟩⟩⟩ <;> rfl

theorem readTable_cons_head (first : String) (rest : List String) :
    ∃ tl, readTable (first :: rest) = padRow (rowFields first).length (rowFields first) :: tl := by
  rw [readTable_eq]
  simp [List.filter_cons]

theorem pipeline_ok_shape (raw : String) (t : Table)
    (h : pipeline raw = Except.ok t) :
    ∃ first rest, validLines raw = first :: rest ∧
      cleanTable (forceColumns (readTable (first :: rest))) = t := by
  by_cases hv : validLines raw = []
  · simp [pipeline, hv] at h
  · cases hvs : validLines raw with
    | nil => exact absurd hvs hv
    | cons a l =>
      refine ⟨a, l, rfl, ?_⟩
      rw [← hvs]
      simpa [pipeline, hv] using h

/-! ## Claim theorems -/

/-- C1: for every normalized record sequence and numeric declared salary, the
risk check emits a LumpSum flag (referencing that record's credit amount and
date) for exactly those records whose credit exceeds `salary * 3` and whose
description does not case-insensitively contain "SALARY"; the flags appear in
record order. -/
theorem lumpSum_flags_exact (salary : ℚ) (rs : List NRecord) :
    riskFlags salary rs =
      (rs.filter
          (fun r => decide (r.credit > salary * 3) && !descHasSalary r.description)).map
        mkFlag :=
  riskFlags_eq_filterMap salary rs

/-- C10: a record whose description is missing (NaN, modelled `Option.none`)
is treated by the Lump Sum rule as not containing "SALARY" (`na=False`), so
it is flagged whenever its credit exceeds `salary * 3`. -/
theorem missing_description_flagged (salary : ℚ) (rs : List NRecord) (r : NRecord)
    (hmem : r ∈ rs) (hdesc : r.description = Option.none)
    (hcredit : r.credit > salary * 3) :
    mkFlag r ∈ riskFlags salary rs := by
  rw [riskFlags_eq_filterMap]
  refine List.mem_map_of_mem _ (List.mem_filter.2 ⟨hmem, ?_⟩)
  simp [descHasSalary, hdesc, hcredit]

/-- Witness for C10 at a concrete record with a missing description. -/
theorem missing_description_flagged_witness :
    mkFlag ⟨"01/01", Option.none, 700000, 0, 0⟩ ∈
      riskFlags 200000 [⟨"01/01", Option.none, 700000, 0, 0⟩] :=
  missing_description_flagged 200000 _ _ (List.mem_singleton.2 rfl) rfl (by norm_num)

/-- C2 counterexample: `"5,000.00 DR"` carries an upper-case directional
marker; `clean_money` does not strip `"DR"` (only the exact-case `"Dr"`), so
the residual fails to parse and the result is `0.0`, not the numerically
equivalent `5000.0`. -/
theorem clean_money_upper_marker_counterexample :
    clean_money (PyVal.str "5,000.00 DR") = PyFloat.num 0 ∧ (0 : ℚ) ≠ 5000 :=
  ⟨by with_unfolding_all rfl, by norm_num⟩

/-- C2 amended: `clean_money` strips commas, the currency glyph, and the
exact-case markers "Dr" and "Cr"; whenever the stripped residual parses as a
float the parsed value is returned, while the empty string, `None`, and any
string whose residual fails numeric parsing (which includes upper-case
"DR"/"CR" markers, since those are not stripped) return `0.0`. -/
theorem clean_money_amended :
    (∀ (s : String) (f : PyFloat),
        pyFloatParse (cleanResidual s) = some f → clean_money (PyVal.str s) = f) ∧
    clean_money (PyVal.str "") = PyFloat.num 0 ∧
    clean_money PyVal.none = PyFloat.num 0 ∧
    (∀ s : String, pyFloatParse (cleanResidual s) = Option.none →
        clean_money (PyVal.str s) = PyFloat.num 0) := by
  refine ⟨?_, rfl, rfl, ?_⟩
  · intro s f hp
    by_cases hs : s = ""
    · rw [hs] at hp
      have h0 : pyFloatParse (cleanResidual "") = Option.none := by
        with_unfolding_all rfl
      rw [h0] at hp
      simp at hp
    · simp [clean_money, pyTruthy, hs, float_or_raise, pyStr, hp]
  · intro s hp
    by_cases hs : s = ""
    · rw [hs]; rfl
    · simp [clean_money, pyTruthy, hs, float_or_raise, pyStr, hp]

/-- Witness for C2 amended: a decorated monetary string with comma, currency
glyph, and exact-case "Cr" marker normalizes to its numeric value. -/
theorem clean_money_amended_witness :
    clean_money (PyVal.str "₦1,234.50Cr") = PyFloat.num (2469 / 2) :=
  clean_money_amended.1 "₦1,234.50Cr" (PyFloat.num (2469 / 2))
    (by with_unfolding_all rfl)

/-- C9: `clean_money` is total on the modelled Python scalar values (strings,
ints, floats including NaN, None): it always returns a float, and when the
cleaned residual of a string input fails numeric parsing (a raised
`ValueError`), the handler returns `0.0` instead of propagating. -/
theorem clean_money_total (v : PyVal) :
    (∃ f : PyFloat, clean_money v = f) ∧
    (∀ s : String, v = PyVal.str s →
        float_or_raise (cleanResidual s) = Except.error () →
        clean_money v = PyFloat.num 0) := by
  refine ⟨⟨clean_money v, rfl⟩, ?_⟩
  rintro s rfl herr
  by_cases hs : s = ""
  · rw [hs]; rfl
  · simp [clean_money, pyTruthy, hs, pyStr, herr]

/-- Witness for C9 at a string whose cleaned residual fails to parse. -/
theorem clean_money_total_witness :
    clean_money (PyVal.str "12abc") = PyFloat.num 0 :=
  (clean_money_total (PyVal.str "12abc")).2 "12abc" rfl (by with_unfolding_all rfl)

/-- C3 counterexample: on an empty record sequence the Closing Balance
computation `df.iloc[-1]['Balance']` raises `IndexError` (modelled
`Option.none`) instead of producing the value `0` the claim states. -/
theorem closingBalance_empty_counterexample :
    closingBalance ([] : List NRecord) = Option.none ∧
      Option.none ≠ some (0 : ℚ) :=
  ⟨rfl, by simp⟩

/-- C3 amended: `total_inflow` equals the arithmetic sum of the records'
credit fields (`0` for the empty sequence), and for every non-empty sequence
the closing balance is the balance field of the last record; on an empty
sequence the code raises `IndexError` rather than yielding `0` (the pipeline
never produces an empty sequence, since the first delimiter-containing line
always yields a row). -/
theorem audit_summary_amended (rs : List NRecord) :
    totalInflow rs = (rs.map NRecord.credit).sum ∧
    (∀ (pre : List NRecord) (r : NRecord), rs = pre ++ [r] →
        closingBalance rs = some r.balance) := by
  constructor
  · simpa using foldl_add_credit rs 0
  · rintro pre r rfl
    simp [closingBalance]

/-- Witness for C3 amended at a one-record sequence. -/
theorem audit_summary_amended_witness :
    totalInflow [⟨"01/01", some "A", 5, 0, 7⟩] = 5 ∧
      closingBalance [⟨"01/01", some "A", 5, 0, 7⟩] = some 7 := by
  have h := audit_summary_amended [⟨"01/01", some "A", 5, 0, 7⟩]
  exact ⟨by rw [h.1]; norm_num, h.2 [] _ rfl⟩

/-- C7: when no line of the raw completion contains the delimiter, the
pipeline stops with the EmptyExtraction error (`st.error(...); st.stop()`)
and produces no record table or summary. -/
theorem empty_extraction_signaled (raw : String)
    (h : ∀ l ∈ splitLines raw, l.toList.contains '|' = false) :
    pipeline raw = Except.error AuditError.emptyExtraction := by
  have hv : validLines raw = [] := by
    refine List.filter_eq_nil_iff.2 ?_
    intro l hl
    simpa using h l hl
  simp [pipeline, hv]

/-- Witness for C7 at a delimiter-free completion text. -/
theorem empty_extraction_signaled_witness :
    pipeline "Report: nothing found\nEnd" = Except.error AuditError.emptyExtraction :=
  empty_extraction_signaled "Report: nothing found\nEnd" (by with_unfolding_all decide)

/-- C4 counterexample: a restated header line (it contains every expected
column name of the prompt's schema) is not excluded: it comes through as the
first data record, its textual cells intact and its amount cells normalized
to `0.0`. -/
theorem header_row_not_excluded_counterexample :
    pipeline "Date | Description | Credit_Amount | Debit_Amount | Balance\n1|G|900|0|900" =
      Except.ok (Table.named
        [[PyVal.str "Date ", PyVal.str " Description ", PyVal.float (PyFloat.num 0),
          PyVal.float (PyFloat.num 0), PyVal.float (PyFloat.num 0)],
         [PyVal.str "1", PyVal.str "G", PyVal.float (PyFloat.num 900),
          PyVal.float (PyFloat.num 0), PyVal.float (PyFloat.num 900)]]) := by
  with_unfolding_all rfl

/-- C4 amended: the parser performs no header detection; every
delimiter-containing line — a restated header line included — is parsed as a
data row (padded to the table width) whenever its field count does not
exceed the first kept line's field count. -/
theorem header_line_parsed_as_data (first : String) (rest : List String) (hdr : String)
    (hmem : hdr ∈ first :: rest)
    (hlen : (rowFields hdr).length ≤ (rowFields first).length) :
    padRow (rowFields first).length (rowFields hdr) ∈ readTable (first :: rest) :=
  mem_readTable_of_le first rest hdr hmem hlen

/-- Witness for C4 amended: the schema's restated header line itself is a
row of the parsed table. -/
theorem header_line_parsed_as_data_witness :
    padRow (rowFields "Date | Description | Credit_Amount | Debit_Amount | Balance").length
        (rowFields "Date | Description | Credit_Amount | Debit_Amount | Balance") ∈
      readTable
        ["Date | Description | Credit_Amount | Debit_Amount | Balance", "1|G|900|0|900"] :=
  header_line_parsed_as_data _ _ _ (List.mem_cons_self _ _) (le_refl _)

/-- C5 counterexample: a 4-field row in a 5-column table is kept, but its
missing trailing Balance field is NaN — `clean_money` maps NaN to NaN, not
to the claimed default `0.0`. -/
theorem short_row_nan_counterexample :
    pipeline "01/01|OPENING|0|0|1000\n02/02|REFUND|100|0" =
      Except.ok (Table.named
        [[PyVal.str "01/01", PyVal.str "OPENING", PyVal.float (PyFloat.num 0),
          PyVal.float (PyFloat.num 0), PyVal.float (PyFloat.num 1000)],
         [PyVal.str "02/02", PyVal.str "REFUND", PyVal.float (PyFloat.num 100),
          PyVal.float (PyFloat.num 0), PyVal.float PyFloat.nan]]) ∧
    PyFloat.nan ≠ PyFloat.num 0 :=
  ⟨by with_unfolding_all rfl, by decide⟩

/-- C5 amended: a row with fewer fields than the first kept line's field
count is kept and padded with NaN cells (not with "0"/"-" defaults), and
`clean_money` keeps NaN as NaN rather than defaulting it to `0.0`; only when
the whole table has exactly four columns does the code append a Balance
column holding int `0`, which does normalize to `0.0`. -/
theorem short_rows_padded_with_nan (first : String) (rest : List String) (line : String)
    (hmem : line ∈ first :: rest)
    (hlt : (rowFields line).length < (rowFields first).length) :
    padRow (rowFields first).length (rowFields line) ∈ readTable (first :: rest) ∧
    clean_money (PyVal.float PyFloat.nan) = PyFloat.nan ∧
    clean_money (PyVal.int 0) = PyFloat.num 0 ∧
    (∀ (t : List (List PyVal)) (r : List PyVal), r.length = 4 →
        forceColumns (r :: t) = Table.named ((r :: t).map (fun row => row ++ [PyVal.int 0]))) := by
  refine ⟨mem_readTable_of_le first rest line hmem (Nat.le_of_lt hlt),
    by with_unfolding_all rfl, rfl, ?_⟩
  intro t r hr
  simp [forceColumns, hr]

/-- Witness for C5 amended: a 2-field row inside a 5-column table is kept,
padded to width 5. -/
theorem short_rows_padded_with_nan_witness :
    padRow (rowFields "a|b|c|d|e").length (rowFields "x|y") ∈
      readTable ["a|b|c|d|e", "x|y"] :=
  (short_rows_padded_with_nan "a|b|c|d|e" ["x|y"] "x|y" (by decide)
    (by with_unfolding_all decide)).1

/-- C6 counterexample: a 6-field row in a 5-column table is a bad line and
is skipped by `on_bad_lines='skip'` — the output has a single record, the
over-segmented row is discarded rather than kept and truncated. -/
theorem over_wide_row_dropped_counterexample :
    pipeline "01/01|A|1|0|10\n02/02|B with|pipe|1|0|10" =
      Except.ok (Table.named
        [[PyVal.str "01/01", PyVal.str "A", PyVal.float (PyFloat.num 1),
          PyVal.float (PyFloat.num 0), PyVal.float (PyFloat.num 10)]]) := by
  with_unfolding_all rfl

/-- C6 amended: rows with more fields than the first kept line's field count
are discarded (skipped as bad lines), not truncated; truncation to the five
schema columns happens only table-wide, when the inferred column count
itself is at least five. -/
theorem over_wide_rows_skipped (first : String) (rest : List String) :
    readTable (first :: rest) =
      ((first :: rest).filter
          (fun l => !decide ((rowFields l).length > (rowFields first).length))).map
        (fun l => padRow (rowFields first).length (rowFields l)) ∧
    (∀ (t : List (List PyVal)) (r : List PyVal), 5 ≤ r.length →
        forceColumns (r :: t) = Table.named ((r :: t).map (fun row => row.take 5))) := by
  refine ⟨readTable_eq first rest, ?_⟩
  intro t r hr
  simp [forceColumns, hr]

/-- Witness for C6 amended: a 3-field row after a 2-field first row is
dropped, and a 6-cell row heading its table is truncated to five cells. -/
theorem over_wide_rows_skipped_witness :
    readTable ["a|b", "c|d|e"] = [padRow (rowFields "a|b").length (rowFields "a|b")] ∧
    forceColumns
        [[PyVal.int 1, PyVal.int 2, PyVal.int 3, PyVal.int 4, PyVal.int 5, PyVal.int 6]] =
      Table.named [[PyVal.int 1, PyVal.int 2, PyVal.int 3, PyVal.int 4, PyVal.int 5]] := by
  constructor
  · rw [(over_wide_rows_skipped "a|b" ["c|d|e"]).1]
    with_unfolding_all rfl
  · rw [(over_wide_rows_skipped "x" []).2 []
      [PyVal.int 1, PyVal.int 2, PyVal.int 3, PyVal.int 4, PyVal.int 5, PyVal.int 6]
      (by decide)]
    with_unfolding_all rfl

/-- C8 counterexample: a completion whose only delimiter line has two fields
produces an output table whose record has two cells, not the five schema
fields — it reaches the display stage as-is (the risk check and metrics are
silently skipped because no column is named Credit). -/
theorem two_field_row_reaches_output_counterexample :
    pipeline "a|b" = Except.ok (Table.unnamed [[PyVal.str "a", PyVal.str "b"]]) ∧
    ([PyVal.str "a", PyVal.str "b"] : List PyVal).length ≠ 5 :=
  ⟨by with_unfolding_all rfl, by decide⟩

/-- C8 amended: whenever the pipeline produces a table with the five schema
columns assigned (inferred column count at least four), every record in it
has exactly five fields; tables whose inferred column count is three or
fewer keep their raw shape and never get the five named fields. -/
theorem named_rows_have_five_fields (raw : String) (rows : List (List PyVal))
    (h : pipeline raw = Except.ok (Table.named rows)) :
    ∀ r ∈ rows, r.length = 5 := by
  obtain ⟨first, rest, hfr, ht⟩ := pipeline_ok_shape raw _ h
  obtain ⟨tl, htl⟩ := readTable_cons_head first rest
  have hlen : ∀ x ∈ readTable (first :: rest), x.length = (rowFields first).length :=
    fun x hx => mem_readTable_length first rest x hx
  rw [htl] at ht hlen
  have hhd : (padRow (rowFields first).length (rowFields first)).length =
      (rowFields first).length :=
    length_padRow _ _ (le_refl _)
  by_cases h5 : 5 ≤ (rowFields first).length
  · have hforce : forceColumns (padRow (rowFields first).length (rowFields first) :: tl) =
        Table.named
          ((padRow (rowFields first).length (rowFields first) :: tl).map
            (fun r => r.take 5)) := by
      simp only [forceColumns]
      rw [hhd, if_pos h5]
    rw [hforce] at ht
    simp only [cleanTable] at ht
    have hrows : rows =
        (((padRow (rowFields first).length (rowFields first) :: tl).map
          (fun r => r.take 5)).map cleanRow) := by
      cases ht
      rfl
    intro r hr
    rw [hrows] at hr
    obtain ⟨y, hy, rfl⟩ := List.mem_map.1 hr
    obtain ⟨x, hx, rfl⟩ := List.mem_map.1 hy
    rw [length_cleanRow, List.length_take, hlen x hx]
    exact Nat.min_eq_left h5
  · by_cases h4 : (rowFields first).length = 4
    · have hforce : forceColumns (padRow (rowFields first).length (rowFields first) :: tl) =
          Table.named
            ((padRow (rowFields first).length (rowFields first) :: tl).map
              (fun r => r ++ [PyVal.int 0])) := by
        simp only [forceColumns]
        rw [hhd, if_neg (by omega), if_pos h4]
      rw [hforce] at ht
      simp only [cleanTable] at ht
      have hrows : rows =
          (((padRow (rowFields first).length (rowFields first) :: tl).map
            (fun r => r ++ [PyVal.int 0])).map cleanRow) := by
        cases ht
        rfl
      intro r hr
      rw [hrows] at hr
      obtain ⟨y, hy, rfl⟩ := List.mem_map.1 hr
      obtain ⟨x, hx, rfl⟩ := List.mem_map.1 hy
      rw [length_cleanRow, List.length_append, hlen x hx, h4]
      rfl
    · have hforce : forceColumns (padRow (rowFields first).length (rowFields first) :: tl) =
          Table.unnamed (padRow (rowFields first).length (rowFields first) :: tl) := by
        simp only [forceColumns]
        rw [hhd, if_neg (by omega), if_neg h4]
      rw [hforce] at ht
      simp only [cleanTable] at ht
      exact absurd ht (by simp)

/-- Witness for C8 amended at a one-row five-column completion. -/
theorem named_rows_have_five_fields_witness :
    ([PyVal.str "1", PyVal.str "G", PyVal.float (PyFloat.num 9),
      PyVal.float (PyFloat.num 0), PyVal.float (PyFloat.num 9)] : List PyVal).length = 5 :=
  named_rows_have_five_fields "1|G|9|0|9"
    [[PyVal.str "1", PyVal.str "G", PyVal.float (PyFloat.num 9),
      PyVal.float (PyFloat.num 0), PyVal.float (PyFloat.num 9)]]
    (by with_unfolding_all rfl) _ (List.mem_singleton.2 rfl)

end VisaAuditor
